import Mathlib

/-!
Shallow embedding of the xtended402 Gin payment middleware (server/go and the
gin middleware package): settlement orchestration with configurable timing,
before-settle hooks, request body capture, response capture, the payment-data
accessor and the context price resolver.  The middleware is modelled as a
pure function from an abstract engine behaviour, configuration and handler
behaviour to the trace of observable events it performs on a request.
-/

namespace Xtended402

/-- Model of `x402.VerifyResponse` at the interface boundary: the validity
flag plus the other fields the engine may fill (modelled abstractly as
optional strings, `none` meaning unset/zero value). -/
structure VerifyResponse where
  isValid : Bool
  invalidReason : Option String
  payer : Option String
  deriving Repr, DecidableEq

/-- Model of `x402types.PaymentPayload` at the interface boundary (opaque
client-submitted proof; the orchestrator never inspects it). -/
structure PaymentPayload where
  raw : String
  deriving Repr, DecidableEq

/-- Model of `x402types.PaymentRequirements` at the interface boundary. -/
structure PaymentRequirements where
  raw : String
  deriving Repr, DecidableEq

/-- Model of `x402.SettleResponse`. -/
structure SettleResponse where
  success : Bool
  transaction : String
  network : String
  payer : String
  deriving Repr, DecidableEq

/-- Model of the engine's settlement result (`server.ProcessSettlement`
return value): success flag, error reason, transaction data and response
headers. -/
structure SettleResult where
  success : Bool
  errorReason : String
  transaction : String
  network : String
  payer : String
  headers : List (String × String)
  deriving Repr, DecidableEq

/-- Model of `x402http.HTTPResponseInstructions` (engine-provided payment
error response). -/
structure HTTPResponseInstructions where
  status : Nat
  headers : List (String × String)
  body : String
  isHTML : Bool
  deriving Repr, DecidableEq

/-- Model of `x402http.HTTPProcessResult`: the three outcomes of
`server.ProcessHTTPRequest`. -/
inductive HTTPProcessResult where
  | noPaymentRequired
  | paymentError (response : HTTPResponseInstructions)
  | paymentVerified (payload : PaymentPayload) (requirements : PaymentRequirements)
  deriving Repr, DecidableEq

/-- The protocol engine's per-request behaviour at its interface boundary:
whether the route requires payment, what `ProcessHTTPRequest` returns, what
`ProcessSettlement` returns, and the engine's actual verification output
(which the middleware, notably, never consults when building the hook
argument). -/
structure Engine where
  requiresPayment : Bool
  processResult : HTTPProcessResult
  settleResult : SettleResult
  verifyOutput : VerifyResponse
  deriving Repr, DecidableEq

/-- Middleware configuration (`MiddlewareConfig`), restricted to the fields
that influence the orchestration trace.  `beforeSettleHook = none` means no
hook configured; `some none` a hook that returns nil; `some (some msg)` a
hook that returns an error with message `msg`. -/
structure MiddlewareConfig where
  settlementTiming : String
  beforeSettleHook : Option (Option String)
  hasErrorHandler : Bool
  hasSettlementHandler : Bool
  deriving Repr, DecidableEq

/-- The defaults `PaymentMiddleware` installs before applying options. -/
def defaultMiddlewareConfig : MiddlewareConfig :=
  { settlementTiming := "after"
    beforeSettleHook := none
    hasErrorHandler := false
    hasSettlementHandler := false }

/-- Model of `xtended402.PaymentData` (server/go/types.go). -/
structure PaymentData where
  paymentPayload : PaymentPayload
  settleResponse : SettleResponse
  paymentRequirements : PaymentRequirements
  verifyResponse : VerifyResponse
  requestBody : List Nat
  deriving Repr, DecidableEq

/-- `xtended402.PaymentDataKey`. -/
def PaymentDataKey : String := "xtended402PaymentData"

/-- One call a business handler makes on its response writer. -/
inductive WriterCall where
  | writeHeader (code : Nat)
  | write (data : List Nat)
  deriving Repr, DecidableEq

/-- The downstream business handler's behaviour on one request: the writer
calls it performs and whether it aborts the Gin chain. -/
structure HandlerBehavior where
  calls : List WriterCall
  aborts : Bool
  deriving Repr, DecidableEq

/-- Body of a response the middleware transmits on the real connection. -/
inductive ResponseBody where
  | json (error : String) (details : String)
  | bytes (data : List Nat)
  | engineBody (response : HTTPResponseInstructions)
  deriving Repr, DecidableEq

/-- Observable events of one middleware run, in execution order. -/
inductive Event where
  | verifyCall
  | hookCall (arg : VerifyResponse)
  | settleCall (payload : PaymentPayload) (requirements : PaymentRequirements)
  | handlerRun
  | errorHandlerCall (msg : String)
  | settlementHandlerCall (resp : SettleResponse)
  | storePaymentData (data : PaymentData)
  | respond (status : Nat) (body : ResponseBody)
  | abort
  deriving Repr, DecidableEq

/-! ## Request body capture (createMiddlewareHandler lines 280-289)

The Go code reads the whole body when `c.Request.Body != nil`, keeps the
bytes, and replaces the body with a fresh reader over them; a `nil` body is
left untouched and the captured bytes stay empty.  A body stream is modelled
as `Option (List Nat)` (`none` = absent). -/

/-- `capture(request) → bytes`, returning the captured bytes together with
the request body stream as it stands after capture. -/
def captureBody : Option (List Nat) → List Nat × Option (List Nat)
  | none => ([], none)
  | some bs => (bs, some bs)

/-! ## Response capture (responseCapture, part_000 lines 528-563) -/

/-- State of `responseCapture`: buffered body, status code and the
`written` latch.  Initial state has `statusCode = http.StatusOK`. -/
structure CaptureState where
  body : List Nat
  statusCode : Nat
  written : Bool
  deriving Repr, DecidableEq

def CaptureState.init : CaptureState :=
  { body := [], statusCode := 200, written := false }

/-- `writeHeaderLocked`: the first status fix wins. -/
def writeHeaderLocked (s : CaptureState) (code : Nat) : CaptureState :=
  if !s.written then { s with statusCode := code, written := true } else s

/-- One writer call on the capture proxy: `WriteHeader` delegates to
`writeHeaderLocked`; `Write` first fixes status 200 if unset, then appends
to the buffer. -/
def captureStep (s : CaptureState) : WriterCall → CaptureState
  | .writeHeader code => writeHeaderLocked s code
  | .write data =>
      let s := if !s.written then writeHeaderLocked s 200 else s
      { s with body := s.body ++ data }

/-- Run a whole sequence of writer calls on the capture proxy. -/
def runCapture (calls : List WriterCall) : CaptureState :=
  calls.foldl captureStep CaptureState.init

/-! ## Settlement orchestration -/

/-- The "Simplified" verify response the middleware constructs for the hook
argument (`&x402.VerifyResponse{IsValid: true}`). -/
def simplifiedVerify : VerifyResponse :=
  { isValid := true, invalidReason := none, payer := none }

/-- Error reason defaulting shared by both settlement paths. -/
def settleErrorReason (r : SettleResult) : String :=
  if r.errorReason = "" then "Settlement failed" else r.errorReason

/-- Events emitted when settlement failed (`!settleResult.Success`): custom
error handler if configured, else the 402 JSON body. -/
def settleFailureEvents (config : MiddlewareConfig) (r : SettleResult) : List Event :=
  if config.hasErrorHandler then
    [.errorHandlerCall ("settlement failed: " ++ settleErrorReason r)]
  else
    [.respond 402 (.json "Settlement failed" (settleErrorReason r))]

/-- Events emitted when the before-settle hook returns an error. -/
def hookFailureEvents (config : MiddlewareConfig) (msg : String) : List Event :=
  if config.hasErrorHandler then
    [.errorHandlerCall ("before-settle hook failed: " ++ msg)]
  else
    [.respond 402 (.json "Pre-settlement validation failed" msg)]

/-- `handlePaymentError` (part_000 lines 335-349): emit the engine-provided
response and abort. -/
def handlePaymentError (response : HTTPResponseInstructions) : List Event :=
  [.respond response.status (.engineBody response), .abort]

/-- `handlePaymentVerifiedSettleAfter` (part_000 lines 353-442):
run handler on the capture proxy, stop if aborted, flush verbatim if the
captured status is an error, else hook → settle → on success flush the
captured response. -/
def handlePaymentVerifiedSettleAfter (engine : Engine) (config : MiddlewareConfig)
    (hb : HandlerBehavior) (payload : PaymentPayload)
    (requirements : PaymentRequirements) : List Event :=
  let cap := runCapture hb.calls
  .handlerRun ::
  (if hb.aborts then []
   else if cap.statusCode ≥ 400 then
     [.respond cap.statusCode (.bytes cap.body)]
   else
     let settlePart : List Event :=
       .settleCall payload requirements ::
       (if !engine.settleResult.success then
          settleFailureEvents config engine.settleResult
        else
          (if config.hasSettlementHandler then
             [.settlementHandlerCall
               { success := true
                 transaction := engine.settleResult.transaction
                 network := engine.settleResult.network
                 payer := engine.settleResult.payer }]
           else []) ++
          [.respond cap.statusCode (.bytes cap.body)])
     match config.beforeSettleHook with
     | none => settlePart
     | some hookRes =>
         .hookCall simplifiedVerify ::
         (match hookRes with
          | some msg => hookFailureEvents config msg
          | none => settlePart))

/-- `handlePaymentVerifiedSettleBefore` (part_000 lines 446-521):
hook → settle → on success store PaymentData, run settlement handler, then
run the business handler; on hook error or settlement failure emit the error
events and abort without running the handler. -/
def handlePaymentVerifiedSettleBefore (engine : Engine) (config : MiddlewareConfig)
    (payload : PaymentPayload) (requirements : PaymentRequirements)
    (requestBody : List Nat) : List Event :=
  let settlePart : List Event :=
    .settleCall payload requirements ::
    (if !engine.settleResult.success then
       settleFailureEvents config engine.settleResult ++ [.abort]
     else
       let paymentData : PaymentData :=
         { paymentPayload := payload
           settleResponse :=
             { success := true
               transaction := engine.settleResult.transaction
               network := engine.settleResult.network
               payer := engine.settleResult.payer }
           paymentRequirements := requirements
           verifyResponse := { isValid := true, invalidReason := none, payer := none }
           requestBody := requestBody }
       .storePaymentData paymentData ::
       (if config.hasSettlementHandler then
          [.settlementHandlerCall paymentData.settleResponse]
        else []) ++
       [.handlerRun])
  match config.beforeSettleHook with
  | none => settlePart
  | some hookRes =>
      .hookCall simplifiedVerify ::
      (match hookRes with
       | some msg => hookFailureEvents config msg ++ [.abort]
       | none => settlePart)

/-- `createMiddlewareHandler` (part_000 lines 276-332): capture the body,
short-circuit when no payment is required, call `ProcessHTTPRequest` once,
and dispatch on its result, selecting the settlement-timing branch for
verified payments. -/
def middlewareRun (engine : Engine) (config : MiddlewareConfig)
    (hb : HandlerBehavior) (body : Option (List Nat)) : List Event :=
  let requestBody := (captureBody body).1
  if !engine.requiresPayment then [.handlerRun]
  else
    .verifyCall ::
    match engine.processResult with
    | .noPaymentRequired => [.handlerRun]
    | .paymentError response => handlePaymentError response
    | .paymentVerified payload requirements =>
        if config.settlementTiming = "before" then
          handlePaymentVerifiedSettleBefore engine config payload requirements requestBody
        else
          handlePaymentVerifiedSettleAfter engine config hb payload requirements

/-! ## Trace observation helpers -/

def Event.isVerify : Event → Bool
  | .verifyCall => true
  | _ => false

def Event.isSettle : Event → Bool
  | .settleCall _ _ => true
  | _ => false

def Event.isHook : Event → Bool
  | .hookCall _ => true
  | _ => false

def Event.isHandlerRun : Event → Bool
  | .handlerRun => true
  | _ => false

def Event.isStore : Event → Bool
  | .storePaymentData _ => true
  | _ => false

def Event.isBytesRespond : Event → Bool
  | .respond _ (.bytes _) => true
  | _ => false

/-- Number of events satisfying `p` in a trace. -/
def countEvents (p : Event → Bool) (tr : List Event) : Nat :=
  (tr.filter p).length

/-- `true` iff no event satisfying `q` occurs anywhere after an event
satisfying `p` (used for strict ordering statements). -/
def noneAfter (p q : Event → Bool) : List Event → Bool
  | [] => true
  | e :: tr => if p e then tr.all (fun x => !q x) else noneAfter p q tr

/-! ## Payment data accessor (server/go/types.go) -/

/-- The request-scoped store (`gin.Context` key/value bag), holding payment
data values under string keys. -/
def RequestScope := List (String × PaymentData)

/-- `c.Set` on the request scope. -/
def RequestScope.set (scope : RequestScope) (key : String) (data : PaymentData) :
    RequestScope :=
  (key, data) :: scope

/-- `GetPaymentData`: look the well-known key up, `none` when absent. -/
def GetPaymentData (scope : RequestScope) : Option PaymentData :=
  match scope.find? (fun kv => kv.1 = PaymentDataKey) with
  | some kv => some kv.2
  | none => none

/-- The request scope built up by the middleware's own store events in a
trace (the scope starts empty for each request). -/
def scopeOfTrace (tr : List Event) : RequestScope :=
  tr.foldl
    (fun scope e =>
      match e with
      | .storePaymentData data => RequestScope.set scope PaymentDataKey data
      | _ => scope)
    []

/-! ## Context price resolver (part_001 lines 13-20) -/

/-- A value stored in a `context.Context`: either a string (the only shape
the resolver's type assertion accepts) or anything else. -/
inductive CtxValue where
  | str (s : String)
  | other
  deriving Repr, DecidableEq

/-- `ContextPrice(key)` applied to a request context, the context modelled
as a lookup function.  Mirrors the type-asserting lookup in the source:
only a string value yields a price. -/
def ContextPrice (key : String) (ctx : String → Option CtxValue) :
    Except String String :=
  match ctx key with
  | some (.str price) => .ok price
  | _ => .error ("price not found in context with key: " ++ key)

/-! ## Trace lemmas -/

theorem countEvents_nil (p : Event → Bool) : countEvents p [] = 0 := rfl

theorem countEvents_cons (p : Event → Bool) (e : Event) (tr : List Event) :
    countEvents p (e :: tr) = (if p e then 1 else 0) + countEvents p tr := by
  simp only [countEvents, List.filter_cons]
  split <;> simp [Nat.add_comm]

theorem countEvents_append (p : Event → Bool) (tr₁ tr₂ : List Event) :
    countEvents p (tr₁ ++ tr₂) = countEvents p tr₁ + countEvents p tr₂ := by
  simp [countEvents, List.filter_append]

/-! ## Claims about the context price resolver and the response capture -/

/-- C7: `ContextPrice(k)` yields the descriptive "price not found" error
whenever no string value is stored under `k` (so never any default price),
and returns exactly the stored string otherwise. -/
theorem contextPrice_explicit_failure (k : String) (ctx : String → Option CtxValue) :
    ((∀ s, ctx k ≠ some (.str s)) →
      ContextPrice k ctx = .error ("price not found in context with key: " ++ k)) ∧
    (∀ s, ctx k = some (.str s) → ContextPrice k ctx = .ok s) := by
  constructor
  · intro h
    unfold ContextPrice
    match hv : ctx k with
    | none => rfl
    | some .other => rfl
    | some (.str s) => exact absurd hv (h s)
  · intro s h
    unfold ContextPrice
    rw [h]

theorem contextPrice_explicit_failure_witness :
    ContextPrice "cartTotal" (fun _ => none) =
      .error "price not found in context with key: cartTotal" ∧
    ContextPrice "cartTotal" (fun _ => some (.str "1500000")) = .ok "1500000" :=
  ⟨(contextPrice_explicit_failure "cartTotal" (fun _ => none)).1
      (fun s h => by simp at h),
   (contextPrice_explicit_failure "cartTotal" (fun _ => some (.str "1500000"))).2
      "1500000" rfl⟩

/-- Status the C8 claim predicts for a writer-call sequence: the code of the
first `WriteHeader` if one occurs before any `Write`, otherwise 200. -/
def claimedStatus : List WriterCall → Nat
  | [] => 200
  | .writeHeader code :: _ => code
  | .write _ :: _ => 200

/-- Body the C8 claim predicts: concatenation of all `Write` payloads in
call order. -/
def claimedBody : List WriterCall → List Nat
  | [] => []
  | .writeHeader _ :: rest => claimedBody rest
  | .write data :: rest => data ++ claimedBody rest

theorem foldl_captureStep_written (calls : List WriterCall) (b : List Nat) (sc : Nat) :
    calls.foldl captureStep ⟨b, sc, true⟩ = ⟨b ++ claimedBody calls, sc, true⟩ := by
  induction calls generalizing b with
  | nil => simp [claimedBody]
  | cons c rest ih =>
    cases c with
    | writeHeader code =>
        simp [List.foldl_cons, captureStep, writeHeaderLocked, ih, claimedBody]
    | write data =>
        simp [List.foldl_cons, captureStep, writeHeaderLocked, ih, claimedBody]

/-- C8: for every sequence of `WriteHeader`/`Write` calls on the response
capture proxy, the recorded status is the code of the first `WriteHeader` if
one precedes every `Write` and 200 otherwise (later `WriteHeader`s being
ignored), and the buffered body is the in-order concatenation of all
written byte slices. -/
theorem responseCapture_first_status_wins (calls : List WriterCall) :
    (runCapture calls).statusCode = claimedStatus calls ∧
    (runCapture calls).body = claimedBody calls := by
  unfold runCapture CaptureState.init
  cases calls with
  | nil => exact ⟨rfl, rfl⟩
  | cons c rest =>
    cases c with
    | writeHeader code =>
        simp [List.foldl_cons, captureStep, writeHeaderLocked,
              foldl_captureStep_written, claimedStatus, claimedBody]
    | write data =>
        simp [List.foldl_cons, captureStep, writeHeaderLocked,
              foldl_captureStep_written, claimedStatus, claimedBody]

theorem countEvents_eq_zero (p : Event → Bool) (tr : List Event) :
    countEvents p tr = 0 ↔ ∀ e ∈ tr, p e = false := by
  induction tr with
  | nil => simp [countEvents_nil]
  | cons e tr ih =>
    rw [countEvents_cons]
    by_cases h : p e <;> simp [h, ih]

/-- Any payment data stored by the before-timing branch was stored after a
successful settlement and carries exactly the captured request body. -/
theorem handleBefore_store (engine : Engine) (config : MiddlewareConfig)
    (payload : PaymentPayload) (reqs : PaymentRequirements) (rb : List Nat)
    (pd : PaymentData) :
    Event.storePaymentData pd ∈
      handlePaymentVerifiedSettleBefore engine config payload reqs rb →
    engine.settleResult.success = true ∧ pd.requestBody = rb := by
  rcases config with ⟨timing, hook, heh, hsh⟩
  unfold handlePaymentVerifiedSettleBefore
  intro hmem
  by_cases hs : engine.settleResult.success
  · refine ⟨hs, ?_⟩
    rcases hook with _ | (_ | msg) <;>
      [skip; skip;
       rcases heh with _ | _ <;>
         simp [hs, hookFailureEvents] at hmem] <;>
      · cases hsh <;> simp [hs] at hmem <;> rw [hmem]
  · exfalso
    rcases hook with _ | (_ | msg) <;> rcases heh with _ | _ <;>
      simp [hs, settleFailureEvents, hookFailureEvents] at hmem

/-- The after-timing branch never stores payment data. -/
theorem handleAfter_no_store (engine : Engine) (config : MiddlewareConfig)
    (hb : HandlerBehavior) (payload : PaymentPayload) (reqs : PaymentRequirements) :
    countEvents Event.isStore
      (handlePaymentVerifiedSettleAfter engine config hb payload reqs) = 0 := by
  rcases config with ⟨timing, hook, heh, hsh⟩
  unfold handlePaymentVerifiedSettleAfter
  rcases hook with _ | (_ | msg) <;> rcases heh with _ | _ <;> rcases hsh with _ | _ <;>
    rcases hb with ⟨calls, _ | _⟩ <;>
    by_cases hst : (runCapture calls).statusCode ≥ 400 <;>
    by_cases hs : engine.settleResult.success <;>
    simp [hst, hs, settleFailureEvents, hookFailureEvents,
          countEvents_cons, countEvents_append, countEvents_nil, Event.isStore]

/-- C6: body capture leaves the body stream holding exactly the original
bytes (so the engine's inspection and the business handler observe
byte-identical content), returns those bytes (empty and untouched when the
body is absent), and any PaymentData the middleware stores exposes exactly
the captured bytes as its RequestBody. -/
theorem bodyCapture_reread (body : Option (List Nat)) (engine : Engine)
    (config : MiddlewareConfig) (hb : HandlerBehavior) :
    (captureBody body).2 = body ∧
    (captureBody body).1 = body.getD [] ∧
    captureBody none = ([], none) ∧
    (∀ pd : PaymentData,
       Event.storePaymentData pd ∈ middlewareRun engine config hb body →
       pd.requestBody = (captureBody body).1) := by
  refine ⟨?_, ?_, rfl, ?_⟩
  · cases body <;> rfl
  · cases body <;> rfl
  · intro pd hmem
    unfold middlewareRun at hmem
    rcases engine with ⟨rp, pr, sr, vo⟩
    rcases rp with _ | _
    · simp at hmem
    · rcases pr with _ | resp | ⟨payload, reqs⟩
      · simp at hmem
      · simp [handlePaymentError] at hmem
      · by_cases htiming : config.settlementTiming = "before"
        · simp only [htiming, Bool.not_true, Bool.false_eq_true, if_false, if_true,
            List.mem_cons, reduceCtorEq, false_or] at hmem
          exact (handleBefore_store ⟨true, .paymentVerified payload reqs, sr, vo⟩
            config payload reqs _ pd hmem).2
        · exfalso
          simp only [htiming, Bool.not_true, Bool.false_eq_true, if_false,
            List.mem_cons, reduceCtorEq, false_or] at hmem
          have h0 := handleAfter_no_store ⟨true, .paymentVerified payload reqs, sr, vo⟩
            config hb payload reqs
          have := (countEvents_eq_zero Event.isStore _).mp h0 _ hmem
          simp [Event.isStore] at this

/-! ## Concrete sample runs -/

def sampleSettleOk : SettleResult :=
  { success := true, errorReason := "", transaction := "0xabc", network := "base"
    payer := "0xpayer", headers := [] }

def sampleSettleFail : SettleResult :=
  { success := false, errorReason := "insufficient funds", transaction := ""
    network := "", payer := "", headers := [] }

def samplePayload : PaymentPayload := ⟨"payload"⟩

def sampleReqs : PaymentRequirements := ⟨"reqs"⟩

def sampleEngineVerify : VerifyResponse :=
  { isValid := false, invalidReason := some "engine draft", payer := some "0xother" }

def sampleEngineOk : Engine :=
  { requiresPayment := true
    processResult := .paymentVerified samplePayload sampleReqs
    settleResult := sampleSettleOk
    verifyOutput := sampleEngineVerify }

def sampleEngineFail : Engine :=
  { requiresPayment := true
    processResult := .paymentVerified samplePayload sampleReqs
    settleResult := sampleSettleFail
    verifyOutput := sampleEngineVerify }

def beforeConfigPlain : MiddlewareConfig :=
  { settlementTiming := "before", beforeSettleHook := none
    hasErrorHandler := false, hasSettlementHandler := false }

def afterConfigPlain : MiddlewareConfig :=
  { settlementTiming := "after", beforeSettleHook := none
    hasErrorHandler := false, hasSettlementHandler := false }

def sampleHandler : HandlerBehavior := { calls := [.write [42]], aborts := false }

/-- The payment data the before-timing success run on `sampleEngineOk`
stores. -/
def samplePaymentData : PaymentData :=
  { paymentPayload := samplePayload
    settleResponse := { success := true, transaction := "0xabc", network := "base"
                        payer := "0xpayer" }
    paymentRequirements := sampleReqs
    verifyResponse := { isValid := true, invalidReason := none, payer := none }
    requestBody := [1, 2, 3] }

theorem bodyCapture_reread_witness :
    samplePaymentData.requestBody = (captureBody (some [1, 2, 3])).1 :=
  (bodyCapture_reread (some [1, 2, 3]) sampleEngineOk beforeConfigPlain
    sampleHandler).2.2.2 samplePaymentData (by decide)

/-! ## Branch count lemmas -/

theorem handleBefore_counts (engine : Engine) (config : MiddlewareConfig)
    (payload : PaymentPayload) (reqs : PaymentRequirements) (rb : List Nat) :
    countEvents Event.isVerify
      (handlePaymentVerifiedSettleBefore engine config payload reqs rb) = 0 ∧
    countEvents Event.isSettle
      (handlePaymentVerifiedSettleBefore engine config payload reqs rb) ≤ 1 ∧
    countEvents Event.isHook
      (handlePaymentVerifiedSettleBefore engine config payload reqs rb) ≤ 1 := by
  rcases config with ⟨timing, hook, heh, hsh⟩
  unfold handlePaymentVerifiedSettleBefore
  rcases hook with _ | (_ | msg) <;> rcases heh with _ | _ <;> rcases hsh with _ | _ <;>
    by_cases hs : engine.settleResult.success <;>
    simp [hs, settleFailureEvents, hookFailureEvents,
          countEvents_cons, countEvents_append, countEvents_nil,
          Event.isVerify, Event.isSettle, Event.isHook]

theorem handleAfter_counts (engine : Engine) (config : MiddlewareConfig)
    (hb : HandlerBehavior) (payload : PaymentPayload) (reqs : PaymentRequirements) :
    countEvents Event.isVerify
      (handlePaymentVerifiedSettleAfter engine config hb payload reqs) = 0 ∧
    countEvents Event.isSettle
      (handlePaymentVerifiedSettleAfter engine config hb payload reqs) ≤ 1 ∧
    countEvents Event.isHook
      (handlePaymentVerifiedSettleAfter engine config hb payload reqs) ≤ 1 := by
  rcases config with ⟨timing, hook, heh, hsh⟩
  unfold handlePaymentVerifiedSettleAfter
  rcases hook with _ | (_ | msg) <;> rcases heh with _ | _ <;> rcases hsh with _ | _ <;>
    rcases hb with ⟨calls, _ | _⟩ <;>
    by_cases hst : (runCapture calls).statusCode ≥ 400 <;>
    by_cases hs : engine.settleResult.success <;>
    simp [hst, hs, settleFailureEvents, hookFailureEvents,
          countEvents_cons, countEvents_append, countEvents_nil,
          Event.isVerify, Event.isSettle, Event.isHook]

/-- C3: in every run — any engine behaviour, timing mode, hook presence,
handler behaviour — the middleware invokes ProcessHTTPRequest at most once
and ProcessSettlement at most once. -/
theorem verify_settle_at_most_once (engine : Engine) (config : MiddlewareConfig)
    (hb : HandlerBehavior) (body : Option (List Nat)) :
    countEvents Event.isVerify (middlewareRun engine config hb body) ≤ 1 ∧
    countEvents Event.isSettle (middlewareRun engine config hb body) ≤ 1 := by
  rcases engine with ⟨rp, pr, sr, vo⟩
  unfold middlewareRun
  rcases rp with _ | _
  · simp [countEvents_cons, countEvents_nil, Event.isVerify, Event.isSettle]
  · rcases pr with _ | resp | ⟨p, r⟩
    · simp [countEvents_cons, countEvents_nil, Event.isVerify, Event.isSettle]
    · simp [handlePaymentError, countEvents_cons, countEvents_nil,
            Event.isVerify, Event.isSettle]
    · by_cases ht : config.settlementTiming = "before"
      · have h := handleBefore_counts ⟨true, .paymentVerified p r, sr, vo⟩ config p r
          (captureBody body).1
        simp only [ht, if_true, Bool.not_true, Bool.false_eq_true, if_false,
          countEvents_cons, Event.isVerify, Event.isSettle, reduceIte] at *
        omega
      · have h := handleAfter_counts ⟨true, .paymentVerified p r, sr, vo⟩ config hb p r
        simp only [ht, if_false, Bool.not_true, Bool.false_eq_true,
          countEvents_cons, Event.isVerify, Event.isSettle, reduceIte] at *
        omega

/-! ## Hook ordering and veto lemmas -/

theorem handleBefore_hook_lemmas (engine : Engine) (config : MiddlewareConfig)
    (payload : PaymentPayload) (reqs : PaymentRequirements) (rb : List Nat) :
    (config.beforeSettleHook = none →
      countEvents Event.isHook
        (handlePaymentVerifiedSettleBefore engine config payload reqs rb) = 0) ∧
    noneAfter Event.isSettle Event.isHook
      (handlePaymentVerifiedSettleBefore engine config payload reqs rb) = true ∧
    (∀ msg, config.beforeSettleHook = some (some msg) →
      countEvents Event.isSettle
        (handlePaymentVerifiedSettleBefore engine config payload reqs rb) = 0 ∧
      (config.hasErrorHandler = false →
        Event.respond 402 (.json "Pre-settlement validation failed" msg) ∈
          handlePaymentVerifiedSettleBefore engine config payload reqs rb)) := by
  rcases config with ⟨timing, hook, heh, hsh⟩
  unfold handlePaymentVerifiedSettleBefore
  rcases hook with _ | (_ | msg) <;> rcases heh with _ | _ <;> rcases hsh with _ | _ <;>
    by_cases hs : engine.settleResult.success <;>
    simp [hs, settleFailureEvents, hookFailureEvents, noneAfter,
          countEvents_cons, countEvents_append, countEvents_nil,
          Event.isSettle, Event.isHook]

theorem handleAfter_hook_lemmas (engine : Engine) (config : MiddlewareConfig)
    (hb : HandlerBehavior) (payload : PaymentPayload) (reqs : PaymentRequirements) :
    (config.beforeSettleHook = none →
      countEvents Event.isHook
        (handlePaymentVerifiedSettleAfter engine config hb payload reqs) = 0) ∧
    noneAfter Event.isSettle Event.isHook
      (handlePaymentVerifiedSettleAfter engine config hb payload reqs) = true ∧
    (∀ msg, config.beforeSettleHook = some (some msg) →
      countEvents Event.isSettle
        (handlePaymentVerifiedSettleAfter engine config hb payload reqs) = 0 ∧
      (config.hasErrorHandler = false →
        Event.hookCall simplifiedVerify ∈
          handlePaymentVerifiedSettleAfter engine config hb payload reqs →
        Event.respond 402 (.json "Pre-settlement validation failed" msg) ∈
          handlePaymentVerifiedSettleAfter engine config hb payload reqs)) := by
  rcases config with ⟨timing, hook, heh, hsh⟩
  unfold handlePaymentVerifiedSettleAfter
  rcases hook with _ | (_ | msg) <;> rcases heh with _ | _ <;> rcases hsh with _ | _ <;>
    rcases hb with ⟨calls, _ | _⟩ <;>
    by_cases hst : (runCapture calls).statusCode ≥ 400 <;>
    by_cases hs : engine.settleResult.success <;>
    simp [hst, hs, settleFailureEvents, hookFailureEvents, noneAfter,
          countEvents_cons, countEvents_append, countEvents_nil,
          Event.isSettle, Event.isHook]

/-- C4: the before-settle hook is invoked at most once per request, never
when unconfigured, only on verified-payment requests (the trace then starts
with the verification call), never after a settlement call; and when it is
configured to return an error, settlement is never invoked and — absent a
custom error handler — an invoked hook produces the 402
"Pre-settlement validation failed" JSON response carrying the hook's
reason. -/
theorem beforeSettleHook_contract (engine : Engine) (config : MiddlewareConfig)
    (hb : HandlerBehavior) (body : Option (List Nat)) :
    countEvents Event.isHook (middlewareRun engine config hb body) ≤ 1 ∧
    (config.beforeSettleHook = none →
      countEvents Event.isHook (middlewareRun engine config hb body) = 0) ∧
    ((∃ arg, Event.hookCall arg ∈ middlewareRun engine config hb body) →
      engine.requiresPayment = true ∧
      (∃ p r, engine.processResult = .paymentVerified p r) ∧
      (∃ rest, middlewareRun engine config hb body = .verifyCall :: rest)) ∧
    noneAfter Event.isSettle Event.isHook (middlewareRun engine config hb body) = true ∧
    (∀ msg, config.beforeSettleHook = some (some msg) →
      countEvents Event.isSettle (middlewareRun engine config hb body) = 0 ∧
      (config.hasErrorHandler = false →
        Event.hookCall simplifiedVerify ∈ middlewareRun engine config hb body →
        Event.respond 402 (.json "Pre-settlement validation failed" msg) ∈
          middlewareRun engine config hb body)) := by
  rcases engine with ⟨rp, pr, sr, vo⟩
  unfold middlewareRun
  rcases rp with _ | _
  · simp [countEvents_cons, countEvents_nil, Event.isHook, Event.isSettle, noneAfter]
  · rcases pr with _ | resp | ⟨p, r⟩
    · simp [countEvents_cons, countEvents_nil, Event.isHook, Event.isSettle, noneAfter]
    · simp [handlePaymentError, countEvents_cons, countEvents_nil,
            Event.isHook, Event.isSettle, noneAfter]
    · by_cases ht : config.settlementTiming = "before"
      · have hc := handleBefore_counts ⟨true, .paymentVerified p r, sr, vo⟩ config p r
          (captureBody body).1
        have hl := handleBefore_hook_lemmas ⟨true, .paymentVerified p r, sr, vo⟩ config p r
          (captureBody body).1
        simp only [ht, if_true, Bool.not_true, Bool.false_eq_true, if_false,
          countEvents_cons, Event.isHook, Event.isSettle, reduceIte,
          noneAfter, Bool.false_eq_true] at *
        refine ⟨by omega, fun h => by have := hl.1 h; omega, ?_, hl.2.1, ?_⟩
        · exact fun _ => ⟨by trivial, ⟨p, r, rfl⟩, ⟨_, rfl⟩⟩
        · intro msg hmsg
          have hv := hl.2.2 msg hmsg
          exact ⟨by omega, fun heh _ => List.mem_cons_of_mem _ (hv.2 heh)⟩
      · have hc := handleAfter_counts ⟨true, .paymentVerified p r, sr, vo⟩ config hb p r
        have hl := handleAfter_hook_lemmas ⟨true, .paymentVerified p r, sr, vo⟩ config hb p r
        simp only [ht, if_false, Bool.not_true, Bool.false_eq_true,
          countEvents_cons, Event.isHook, Event.isSettle, reduceIte,
          noneAfter] at *
        refine ⟨by omega, fun h => by have := hl.1 h; omega, ?_, hl.2.1, ?_⟩
        · exact fun _ => ⟨by trivial, ⟨p, r, rfl⟩, ⟨_, rfl⟩⟩
        · intro msg hmsg
          have hv := hl.2.2 msg hmsg
          refine ⟨by omega, fun heh hmem => ?_⟩
          rcases List.mem_cons.mp hmem with h' | h'
          · exact absurd h' (by simp)
          · exact List.mem_cons_of_mem _ (hv.2 heh h')

def beforeConfigVeto : MiddlewareConfig :=
  { settlementTiming := "before", beforeSettleHook := some (some "out of stock")
    hasErrorHandler := false, hasSettlementHandler := false }

theorem beforeSettleHook_contract_witness :
    countEvents Event.isSettle
      (middlewareRun sampleEngineOk beforeConfigVeto sampleHandler none) = 0 ∧
    Event.respond 402 (.json "Pre-settlement validation failed" "out of stock") ∈
      middlewareRun sampleEngineOk beforeConfigVeto sampleHandler none := by
  have h := beforeSettleHook_contract sampleEngineOk beforeConfigVeto sampleHandler none
  have hv := h.2.2.2.2 "out of stock" rfl
  exact ⟨hv.1, hv.2 rfl (by decide)⟩

/-! ## C10: the hook argument -/

theorem handleBefore_hook_arg (engine : Engine) (config : MiddlewareConfig)
    (payload : PaymentPayload) (reqs : PaymentRequirements) (rb : List Nat)
    (arg : VerifyResponse)
    (hmem : Event.hookCall arg ∈
      handlePaymentVerifiedSettleBefore engine config payload reqs rb) :
    arg = simplifiedVerify := by
  rcases config with ⟨timing, hook, heh, hsh⟩
  unfold handlePaymentVerifiedSettleBefore at hmem
  rcases hook with _ | (_ | msg) <;> rcases heh with _ | _ <;> rcases hsh with _ | _ <;>
    by_cases hs : engine.settleResult.success <;>
    simp [hs, settleFailureEvents, hookFailureEvents] at hmem <;>
    exact hmem

theorem handleAfter_hook_arg (engine : Engine) (config : MiddlewareConfig)
    (hb : HandlerBehavior) (payload : PaymentPayload) (reqs : PaymentRequirements)
    (arg : VerifyResponse)
    (hmem : Event.hookCall arg ∈
      handlePaymentVerifiedSettleAfter engine config hb payload reqs) :
    arg = simplifiedVerify := by
  rcases config with ⟨timing, hook, heh, hsh⟩
  unfold handlePaymentVerifiedSettleAfter at hmem
  rcases hook with _ | (_ | msg) <;> rcases heh with _ | _ <;> rcases hsh with _ | _ <;>
    rcases hb with ⟨calls, _ | _⟩ <;>
    by_cases hst : (runCapture calls).statusCode ≥ 400 <;>
    by_cases hs : engine.settleResult.success <;>
    simp [hst, hs, settleFailureEvents, hookFailureEvents] at hmem <;>
    exact hmem

/-- C10: in both timing modes, every VerifyResponse the middleware passes to
the before-settle hook is the freshly constructed record with IsValid true
and every other field unset — the same constant for every verified request,
independent of the engine's actual verification output. -/
theorem hook_arg_constant (engine : Engine) (config : MiddlewareConfig)
    (hb : HandlerBehavior) (body : Option (List Nat)) (arg : VerifyResponse) :
    Event.hookCall arg ∈ middlewareRun engine config hb body →
    arg = { isValid := true, invalidReason := none, payer := none } := by
  intro hmem
  unfold middlewareRun at hmem
  rcases engine with ⟨rp, pr, sr, vo⟩
  rcases rp with _ | _
  · simp at hmem
  · rcases pr with _ | resp | ⟨p, r⟩
    · simp at hmem
    · simp [handlePaymentError] at hmem
    · by_cases ht : config.settlementTiming = "before" <;>
        simp only [ht, Bool.not_true, Bool.false_eq_true, if_false, if_true,
          List.mem_cons, reduceCtorEq, false_or, reduceIte] at hmem
      · exact handleBefore_hook_arg _ config p r _ arg hmem
      · exact handleAfter_hook_arg _ config hb p r arg hmem

def afterConfigHookOk : MiddlewareConfig :=
  { settlementTiming := "after", beforeSettleHook := some none
    hasErrorHandler := false, hasSettlementHandler := false }

theorem hook_arg_constant_witness :
    simplifiedVerify =
      { isValid := true, invalidReason := none, payer := none : VerifyResponse } :=
  hook_arg_constant sampleEngineOk afterConfigHookOk sampleHandler none
    simplifiedVerify (by decide)

/-! ## C1: no fulfillment without payment (before-timing) -/

def beforeConfigVetoErrHandler : MiddlewareConfig :=
  { settlementTiming := "before", beforeSettleHook := some (some "out of stock")
    hasErrorHandler := true, hasSettlementHandler := false }

/-- C1 counterexample: with a custom error handler configured, a vetoed
before-timing request triggers the error handler and the middleware emits
no response at all — in particular no 402-class error response. -/
theorem before_veto_no_402_counterexample :
    (middlewareRun sampleEngineOk beforeConfigVetoErrHandler sampleHandler none).all
      (fun e => match e with | .respond _ _ => false | _ => true) = true ∧
    Event.abort ∈ middlewareRun sampleEngineOk beforeConfigVetoErrHandler sampleHandler none := by
  decide

theorem handleBefore_failure (engine : Engine) (config : MiddlewareConfig)
    (payload : PaymentPayload) (reqs : PaymentRequirements) (rb : List Nat)
    (hfail : (∃ msg, config.beforeSettleHook = some (some msg)) ∨
             engine.settleResult.success = false) :
    countEvents Event.isHandlerRun
      (handlePaymentVerifiedSettleBefore engine config payload reqs rb) = 0 ∧
    Event.abort ∈ handlePaymentVerifiedSettleBefore engine config payload reqs rb ∧
    (config.hasErrorHandler = false →
      ∃ err det, Event.respond 402 (.json err det) ∈
        handlePaymentVerifiedSettleBefore engine config payload reqs rb) ∧
    (config.hasErrorHandler = true →
      ∃ m, Event.errorHandlerCall m ∈
        handlePaymentVerifiedSettleBefore engine config payload reqs rb) := by
  rcases config with ⟨timing, hook, heh, hsh⟩
  unfold handlePaymentVerifiedSettleBefore
  rcases hfail with ⟨msg, hk⟩ | hs
  · subst hk
    rcases heh with _ | _
    · refine ⟨?_, ?_, fun _ => ⟨"Pre-settlement validation failed", msg, ?_⟩,
              fun h => absurd h (by simp)⟩ <;>
        simp [hookFailureEvents, countEvents_cons, countEvents_append,
              countEvents_nil, Event.isHandlerRun]
    · refine ⟨?_, ?_, fun h => absurd h (by simp),
              fun _ => ⟨"before-settle hook failed: " ++ msg, ?_⟩⟩ <;>
        simp [hookFailureEvents, countEvents_cons, countEvents_append,
              countEvents_nil, Event.isHandlerRun]
  · rcases hook with _ | (_ | msg) <;> rcases heh with _ | _ <;>
      refine ⟨by simp [hs, settleFailureEvents, hookFailureEvents, countEvents_cons,
                       countEvents_append, countEvents_nil, Event.isHandlerRun],
              by simp [hs, settleFailureEvents, hookFailureEvents], ?_, ?_⟩
    · exact fun _ => ⟨"Settlement failed", settleErrorReason engine.settleResult,
        by simp [hs, settleFailureEvents]⟩
    · exact fun h => by simp at h
    · exact fun h => by simp at h
    · exact fun _ => ⟨"settlement failed: " ++ settleErrorReason engine.settleResult,
        by simp [hs, settleFailureEvents]⟩
    · exact fun _ => ⟨"Settlement failed", settleErrorReason engine.settleResult,
        by simp [hs, settleFailureEvents]⟩
    · exact fun h => by simp at h
    · exact fun h => by simp at h
    · exact fun _ => ⟨"settlement failed: " ++ settleErrorReason engine.settleResult,
        by simp [hs, settleFailureEvents]⟩
    · exact fun _ => ⟨"Pre-settlement validation failed", msg,
        by simp [hookFailureEvents]⟩
    · exact fun h => by simp at h
    · exact fun h => by simp at h
    · exact fun _ => ⟨"before-settle hook failed: " ++ msg,
        by simp [hookFailureEvents]⟩

/-- C1 (amended): in before-timing, when the hook vetoes or settlement
fails, the business handler never runs and the request is aborted; absent a
custom error handler a 402 JSON error response is emitted, otherwise the
custom error handler is invoked instead. -/
theorem before_no_fulfillment (engine : Engine) (config : MiddlewareConfig)
    (hb : HandlerBehavior) (body : Option (List Nat))
    (p : PaymentPayload) (r : PaymentRequirements)
    (hrp : engine.requiresPayment = true)
    (hpr : engine.processResult = .paymentVerified p r)
    (ht : config.settlementTiming = "before")
    (hfail : (∃ msg, config.beforeSettleHook = some (some msg)) ∨
             engine.settleResult.success = false) :
    countEvents Event.isHandlerRun (middlewareRun engine config hb body) = 0 ∧
    Event.abort ∈ middlewareRun engine config hb body ∧
    (config.hasErrorHandler = false →
      ∃ err det, Event.respond 402 (.json err det) ∈ middlewareRun engine config hb body) ∧
    (config.hasErrorHandler = true →
      ∃ m, Event.errorHandlerCall m ∈ middlewareRun engine config hb body) := by
  have hB := handleBefore_failure engine config p r (captureBody body).1 hfail
  unfold middlewareRun
  simp only [hrp, hpr, ht, Bool.not_true, Bool.false_eq_true, reduceIte, if_true]
  refine ⟨?_, List.mem_cons_of_mem _ hB.2.1, fun h => ?_, fun h => ?_⟩
  · rw [countEvents_cons]
    simp [Event.isHandlerRun, hB.1]
  · obtain ⟨err, det, hm⟩ := hB.2.2.1 h
    exact ⟨err, det, List.mem_cons_of_mem _ hm⟩
  · obtain ⟨m, hm⟩ := hB.2.2.2 h
    exact ⟨m, List.mem_cons_of_mem _ hm⟩

theorem before_no_fulfillment_witness :
    countEvents Event.isHandlerRun
      (middlewareRun sampleEngineFail beforeConfigPlain sampleHandler none) = 0 ∧
    Event.abort ∈ middlewareRun sampleEngineFail beforeConfigPlain sampleHandler none := by
  have h := before_no_fulfillment sampleEngineFail beforeConfigPlain sampleHandler none
    samplePayload sampleReqs rfl rfl rfl (Or.inr rfl)
  exact ⟨h.1, h.2.1⟩

/-! ## C2: no delivery without payment (after-timing) -/

theorem handleAfter_settle_failure (engine : Engine) (config : MiddlewareConfig)
    (hb : HandlerBehavior) (payload : PaymentPayload) (reqs : PaymentRequirements)
    (hab : hb.aborts = false)
    (hst : (runCapture hb.calls).statusCode < 400)
    (hhook : config.beforeSettleHook = none ∨ config.beforeSettleHook = some none)
    (hs : engine.settleResult.success = false) :
    countEvents Event.isBytesRespond
      (handlePaymentVerifiedSettleAfter engine config hb payload reqs) = 0 ∧
    (config.hasErrorHandler = false →
      Event.respond 402 (.json "Settlement failed" (settleErrorReason engine.settleResult)) ∈
        handlePaymentVerifiedSettleAfter engine config hb payload reqs) ∧
    (config.hasErrorHandler = true →
      Event.errorHandlerCall ("settlement failed: " ++ settleErrorReason engine.settleResult) ∈
        handlePaymentVerifiedSettleAfter engine config hb payload reqs) := by
  unfold handlePaymentVerifiedSettleAfter
  have hst' : ¬(400 ≤ (runCapture hb.calls).statusCode) := by omega
  by_cases heh : config.hasErrorHandler = true <;> rcases hhook with hk | hk <;>
    simp [hab, hst', hk, hs, heh, settleFailureEvents, hookFailureEvents,
          countEvents_cons, countEvents_append, countEvents_nil,
          Event.isBytesRespond, Bool.not_eq_true] at *

/-- C2: in after-timing, when the handler finished without aborting with a
captured status below 400 but settlement fails, the middleware never
transmits the buffered handler output (no bytes response ever occurs) and
emits the 402 "Settlement failed" JSON error — or invokes the custom error
handler when one is configured. -/
theorem after_no_delivery (engine : Engine) (config : MiddlewareConfig)
    (hb : HandlerBehavior) (body : Option (List Nat))
    (p : PaymentPayload) (r : PaymentRequirements)
    (hrp : engine.requiresPayment = true)
    (hpr : engine.processResult = .paymentVerified p r)
    (ht : config.settlementTiming ≠ "before")
    (hab : hb.aborts = false)
    (hst : (runCapture hb.calls).statusCode < 400)
    (hhook : config.beforeSettleHook = none ∨ config.beforeSettleHook = some none)
    (hs : engine.settleResult.success = false) :
    countEvents Event.isBytesRespond (middlewareRun engine config hb body) = 0 ∧
    (config.hasErrorHandler = false →
      Event.respond 402 (.json "Settlement failed" (settleErrorReason engine.settleResult)) ∈
        middlewareRun engine config hb body) ∧
    (config.hasErrorHandler = true →
      Event.errorHandlerCall ("settlement failed: " ++ settleErrorReason engine.settleResult) ∈
        middlewareRun engine config hb body) := by
  have hA := handleAfter_settle_failure engine config hb p r hab hst hhook hs
  unfold middlewareRun
  simp only [hrp, hpr, Bool.not_true, Bool.false_eq_true, reduceIte]
  rw [if_neg ht]
  refine ⟨?_, fun h => List.mem_cons_of_mem _ (hA.2.1 h),
          fun h => List.mem_cons_of_mem _ (hA.2.2 h)⟩
  rw [countEvents_cons]
  simp [Event.isBytesRespond, hA.1]

theorem after_no_delivery_witness :
    countEvents Event.isBytesRespond
      (middlewareRun sampleEngineFail afterConfigPlain sampleHandler none) = 0 ∧
    Event.respond 402
        (.json "Settlement failed" (settleErrorReason sampleEngineFail.settleResult)) ∈
      middlewareRun sampleEngineFail afterConfigPlain sampleHandler none := by
  have h := after_no_delivery sampleEngineFail afterConfigPlain sampleHandler none
    samplePayload sampleReqs rfl rfl (by decide) rfl (by decide) (Or.inl rfl) rfl
  exact ⟨h.1, h.2.1 rfl⟩

/-! ## C5: handler-produced errors are transmitted verbatim, no settlement -/

/-- C5: in after-timing, when the handler did not abort and its captured
status is 400 or greater, the whole run is exactly verification, handler,
then the verbatim retransmission of the captured status and body — with no
settlement call and no hook call. -/
theorem after_handler_error_verbatim (engine : Engine) (config : MiddlewareConfig)
    (hb : HandlerBehavior) (body : Option (List Nat))
    (p : PaymentPayload) (r : PaymentRequirements)
    (hrp : engine.requiresPayment = true)
    (hpr : engine.processResult = .paymentVerified p r)
    (ht : config.settlementTiming ≠ "before")
    (hab : hb.aborts = false)
    (hst : (runCapture hb.calls).statusCode ≥ 400) :
    middlewareRun engine config hb body =
      [.verifyCall, .handlerRun,
       .respond (runCapture hb.calls).statusCode (.bytes (runCapture hb.calls).body)] ∧
    countEvents Event.isSettle (middlewareRun engine config hb body) = 0 ∧
    countEvents Event.isHook (middlewareRun engine config hb body) = 0 := by
  have htr : middlewareRun engine config hb body =
      [.verifyCall, .handlerRun,
       .respond (runCapture hb.calls).statusCode (.bytes (runCapture hb.calls).body)] := by
    unfold middlewareRun handlePaymentVerifiedSettleAfter
    simp only [hrp, hpr, Bool.not_true, Bool.false_eq_true, reduceIte]
    rw [if_neg ht]
    simp [hab, hst]
  refine ⟨htr, ?_, ?_⟩ <;> rw [htr] <;>
    simp [countEvents_cons, countEvents_nil, Event.isSettle, Event.isHook]

def sampleHandler400 : HandlerBehavior :=
  { calls := [.writeHeader 418, .write [9, 9]], aborts := false }

theorem after_handler_error_verbatim_witness :
    middlewareRun sampleEngineOk afterConfigPlain sampleHandler400 none =
      [.verifyCall, .handlerRun, .respond 418 (.bytes [9, 9])] := by
  rw [(after_handler_error_verbatim sampleEngineOk afterConfigPlain sampleHandler400 none
      samplePayload sampleReqs rfl rfl (by decide) rfl (by decide)).1]
  decide

/-! ## C9: request-scoped payment data -/

theorem scopeOfTrace_aux (tr : List Event) (s : RequestScope)
    (h : ∀ e ∈ tr, Event.isStore e = false) :
    tr.foldl
      (fun scope e =>
        match e with
        | .storePaymentData data => RequestScope.set scope PaymentDataKey data
        | _ => scope)
      s = s := by
  induction tr generalizing s with
  | nil => rfl
  | cons e tr ih =>
    have he := h e (List.mem_cons_self _ _)
    have ht : ∀ x ∈ tr, Event.isStore x = false :=
      fun x hx => h x (List.mem_cons_of_mem _ hx)
    rw [List.foldl_cons]
    cases e <;> (try simp [Event.isStore] at he) <;> exact ih s ht

theorem scopeOfTrace_no_store (tr : List Event)
    (h : ∀ e ∈ tr, Event.isStore e = false) : scopeOfTrace tr = [] :=
  scopeOfTrace_aux tr [] h

theorem middleware_no_store_notBefore (engine : Engine) (config : MiddlewareConfig)
    (hb : HandlerBehavior) (body : Option (List Nat))
    (ht : config.settlementTiming ≠ "before") :
    countEvents Event.isStore (middlewareRun engine config hb body) = 0 := by
  unfold middlewareRun
  rcases engine with ⟨rp, pr, sr, vo⟩
  rcases rp with _ | _
  · simp [countEvents_cons, countEvents_nil, Event.isStore]
  · rcases pr with _ | resp | ⟨p, r⟩
    · simp [countEvents_cons, countEvents_nil, Event.isStore]
    · simp [handlePaymentError, countEvents_cons, countEvents_nil, Event.isStore]
    · have hA := handleAfter_no_store ⟨true, .paymentVerified p r, sr, vo⟩ config hb p r
      simp only [Bool.not_true, Bool.false_eq_true, reduceIte, if_neg ht,
        countEvents_cons, Event.isStore]
      simpa using hA

theorem handleBefore_store_settle (engine : Engine) (config : MiddlewareConfig)
    (payload : PaymentPayload) (reqs : PaymentRequirements) (rb : List Nat)
    (pd : PaymentData)
    (hmem : Event.storePaymentData pd ∈
      handlePaymentVerifiedSettleBefore engine config payload reqs rb) :
    Event.settleCall payload reqs ∈
      handlePaymentVerifiedSettleBefore engine config payload reqs rb := by
  rcases config with ⟨timing, hook, heh, hsh⟩
  unfold handlePaymentVerifiedSettleBefore at hmem ⊢
  rcases hook with _ | (_ | msg) <;> rcases heh with _ | _ <;> rcases hsh with _ | _ <;>
    by_cases hs : engine.settleResult.success <;>
    simp [hs, settleFailureEvents, hookFailureEvents] at hmem ⊢

theorem handleBefore_store_order (engine : Engine) (config : MiddlewareConfig)
    (payload : PaymentPayload) (reqs : PaymentRequirements) (rb : List Nat) :
    noneAfter Event.isStore Event.isSettle
      (handlePaymentVerifiedSettleBefore engine config payload reqs rb) = true := by
  rcases config with ⟨timing, hook, heh, hsh⟩
  unfold handlePaymentVerifiedSettleBefore
  rcases hook with _ | (_ | msg) <;> rcases heh with _ | _ <;> rcases hsh with _ | _ <;>
    by_cases hs : engine.settleResult.success <;>
    simp [hs, settleFailureEvents, hookFailureEvents, noneAfter,
          Event.isStore, Event.isSettle]

theorem handleAfter_store_order (engine : Engine) (config : MiddlewareConfig)
    (hb : HandlerBehavior) (payload : PaymentPayload) (reqs : PaymentRequirements) :
    noneAfter Event.isStore Event.isSettle
      (handlePaymentVerifiedSettleAfter engine config hb payload reqs) = true := by
  rcases config with ⟨timing, hook, heh, hsh⟩
  unfold handlePaymentVerifiedSettleAfter
  rcases hook with _ | (_ | msg) <;> rcases heh with _ | _ <;> rcases hsh with _ | _ <;>
    rcases hb with ⟨calls, _ | _⟩ <;>
    by_cases hst : (runCapture calls).statusCode ≥ 400 <;>
    by_cases hs : engine.settleResult.success <;>
    simp [hst, hs, settleFailureEvents, hookFailureEvents, noneAfter,
          Event.isStore, Event.isSettle]

theorem noneAfter_cons_false (p q : Event → Bool) (e : Event) (tr : List Event)
    (h : p e = false) : noneAfter p q (e :: tr) = noneAfter p q tr := by
  simp [noneAfter, h]

theorem middleware_store_order (engine : Engine) (config : MiddlewareConfig)
    (hb : HandlerBehavior) (body : Option (List Nat)) :
    noneAfter Event.isStore Event.isSettle (middlewareRun engine config hb body) = true := by
  unfold middlewareRun
  rcases engine with ⟨rp, pr, sr, vo⟩
  rcases rp with _ | _
  · simp [noneAfter, Event.isStore]
  · rcases pr with _ | resp | ⟨p, r⟩
    · simp [noneAfter, Event.isStore]
    · simp [handlePaymentError, noneAfter, Event.isStore]
    · by_cases ht : config.settlementTiming = "before" <;>
        simp only [ht, Bool.not_true, Bool.false_eq_true, reduceIte, if_true, if_false]
      · rw [noneAfter_cons_false _ _ _ _ rfl]
        exact handleBefore_store_order _ config p r _
      · rw [noneAfter_cons_false _ _ _ _ rfl]
        exact handleAfter_store_order _ config hb p r

/-- C9: whenever the timing mode is not "before" (in particular for the
default "after" mode), no payment data is ever stored, so GetPaymentData
yields none at every point of the request; and any stored payment data
occurs only in before-timing, only when settlement succeeded, with the
settlement call present and never occurring after the store. -/
theorem paymentData_request_scope (engine : Engine) (config : MiddlewareConfig)
    (hb : HandlerBehavior) (body : Option (List Nat)) :
    (config.settlementTiming ≠ "before" →
      ∀ pre suf, middlewareRun engine config hb body = pre ++ suf →
        GetPaymentData (scopeOfTrace pre) = none) ∧
    (∀ pd, Event.storePaymentData pd ∈ middlewareRun engine config hb body →
      config.settlementTiming = "before" ∧ engine.settleResult.success = true ∧
      ∃ p r, Event.settleCall p r ∈ middlewareRun engine config hb body) ∧
    noneAfter Event.isStore Event.isSettle (middlewareRun engine config hb body) = true := by
  refine ⟨?_, ?_, middleware_store_order engine config hb body⟩
  · intro ht pre suf heq
    have h0 := middleware_no_store_notBefore engine config hb body ht
    have hpre : ∀ e ∈ pre, Event.isStore e = false := by
      intro e he
      exact (countEvents_eq_zero _ _).mp h0 e (heq ▸ List.mem_append_left _ he)
    rw [scopeOfTrace_no_store pre hpre]
    rfl
  · intro pd hmem
    by_cases ht : config.settlementTiming = "before"
    · unfold middlewareRun at hmem ⊢
      rcases engine with ⟨rp, pr, sr, vo⟩
      rcases rp with _ | _
      · simp at hmem
      · rcases pr with _ | resp | ⟨p, r⟩
        · simp at hmem
        · simp [handlePaymentError] at hmem
        · simp only [ht, Bool.not_true, Bool.false_eq_true, reduceIte, if_true,
            List.mem_cons, reduceCtorEq, false_or] at hmem
          have hsucc := (handleBefore_store ⟨true, .paymentVerified p r, sr, vo⟩
            config p r _ pd hmem).1
          have hsettle := handleBefore_store_settle ⟨true, .paymentVerified p r, sr, vo⟩
            config p r _ pd hmem
          refine ⟨ht, hsucc, p, r, ?_⟩
          simp only [ht, Bool.not_true, Bool.false_eq_true, reduceIte, if_true,
            List.mem_cons]
          exact Or.inr hsettle
    · exfalso
      have h0 := middleware_no_store_notBefore engine config hb body ht
      have := (countEvents_eq_zero _ _).mp h0 _ hmem
      simp [Event.isStore] at this

theorem paymentData_request_scope_witness :
    GetPaymentData (scopeOfTrace
      (middlewareRun sampleEngineOk afterConfigPlain sampleHandler none)) = none :=
  (paymentData_request_scope sampleEngineOk afterConfigPlain sampleHandler none).1
    (by decide) _ [] (List.append_nil _).symm

end Xtended402
